import Mathlib

/-! Shallow embedding of the multiplayer XO (tic-tac-toe) game-session engine of
`src/main.py`: the board and winner detection, the in-memory session registry
`games : {user_id: {game_id: game_data}}`, and the join / move / delete / reset
callback handlers, modelled as pure functions from registry state to an outcome
(the distinct answer the handler sends) paired with the successor registry. -/

/-- A board is the Python list of 9 cell strings; the empty string is an empty cell. -/
abbrev Board := List String

/-- Reading `board[i]` for an in-range index of a 9-cell board (total, with a default
for the out-of-range case, which the theorems below never rely on). -/
def cell (b : Board) (i : Nat) : String := b.getD i ""

/-- The eight `winning_lines` of `check_winner` in source order: rows, columns, diagonals. -/
def winning_lines : List (Nat × Nat × Nat) :=
  [(0, 1, 2), (3, 4, 5), (6, 7, 8), (0, 3, 6), (1, 4, 7), (2, 5, 8), (0, 4, 8), (2, 4, 6)]

/-- The condition of the `if` inside the loop of `check_winner`: the first cell of the
line is truthy (non-empty) and the three cells are chained-equal. -/
def lineMatches (b : Board) (l : Nat × Nat × Nat) : Prop :=
  cell b l.1 ≠ "" ∧ cell b l.1 = cell b l.2.1 ∧ cell b l.2.1 = cell b l.2.2

instance (b : Board) (l : Nat × Nat × Nat) : Decidable (lineMatches b l) := by
  unfold lineMatches; infer_instance

/-- One iteration of the loop body of `check_winner`. -/
def line_winner (b : Board) (l : Nat × Nat × Nat) : Option String :=
  if lineMatches b l then some (cell b l.1) else none

/-- The `for line in winning_lines` loop of `check_winner`, with its early return. -/
def find_line (b : Board) : List (Nat × Nat × Nat) → Option String
  | [] => none
  | l :: ls =>
    match line_winner b l with
    | some s => some s
    | none => find_line b ls

/-- `check_winner` from `src/main.py`. -/
def check_winner (b : Board) : Option String := find_line b winning_lines

/-- `is_board_full` from `src/main.py`. -/
def is_board_full (b : Board) : Bool := b.all (fun c => c != "")

/-- One game record: the dict created at line 515 of `src/main.py`. -/
structure Game where
  board : Board
  current_player : String
  player1_id : Option Nat
  player2_id : Option Nat
  player1_username : Option String
  player2_username : Option String
  player1_symbol : String
  player2_symbol : String
  game_over : Bool
  winner : Option String
  waiting_for_second_player : Bool
  player1_wins : Nat
  player2_wins : Nat
deriving DecidableEq, Repr

/-- The global registry `games`, a two-level insertion-ordered map
`user_id -> game_id -> game`, modelled as an association list (Python dicts
preserve insertion order). -/
abbrev Registry := List (Nat × List (String × Game))

/-- Python `game_id in user_games` and `user_games[game_id]` on one user bucket. -/
def lookupG : List (String × Game) → String → Option Game
  | [], _ => none
  | (k, v) :: rest, gid => if k = gid then some v else lookupG rest gid

/-- `find_game_by_id` from `src/main.py`: scan the users in order and return the
first owner whose bucket holds `gid`, together with the stored game. -/
def find_game_by_id : Registry → String → Option (Nat × Game)
  | [], _ => none
  | (u, ug) :: rest, gid =>
    match lookupG ug gid with
    | some g => some (u, g)
    | none => find_game_by_id rest gid

/-- Python dict assignment `bucket[gid] = g` on one user bucket. -/
def setG : List (String × Game) → String → Game → List (String × Game)
  | [], gid, g => [(gid, g)]
  | (k, v) :: rest, gid, g => if k = gid then (k, g) :: rest else (k, v) :: setG rest gid g

/-- Python `del bucket[gid]` on one user bucket. -/
def removeG : List (String × Game) → String → List (String × Game)
  | [], _ => []
  | (k, v) :: rest, gid => if k = gid then rest else (k, v) :: removeG rest gid

/-- Python `games[owner]` lookup. -/
def lookupU : Registry → Nat → Option (List (String × Game))
  | [], _ => none
  | (u, ug) :: rest, owner => if u = owner then some ug else lookupU rest owner

/-- Python `games[owner][gid] = g` for an owner key already present in `games`. -/
def setGame : Registry → Nat → String → Game → Registry
  | [], _, _, _ => []
  | (u, ug) :: rest, owner, gid, g =>
    if u = owner then (u, setG ug gid g) :: rest else (u, ug) :: setGame rest owner gid g

/-- Lines 763-768 of `src/main.py`: `del games[owner][gid]`, then
`if not games[owner]: del games[owner]`. -/
def delReg : Registry → Nat → String → Registry
  | [], _, _ => []
  | (u, ug) :: rest, owner, gid =>
    if u = owner then
      (if removeG ug gid = [] then rest else (u, removeG ug gid) :: rest)
    else (u, ug) :: delReg rest owner gid

/-- The distinct answers of `join_challenge_callback`. -/
inductive JoinOutcome
  | createdSeat1
  | alreadySeat1
  | alreadySeat2
  | fullOrFinished
  | fullTwoPlayers
  | joinedSeat2
deriving DecidableEq, Repr

/-- The fresh game dict literal of `join_challenge_callback` (lines 515-529). -/
def new_game (u : Nat) (uname p1s p2s : String) : Game where
  board := List.replicate 9 ""
  current_player := "X"
  player1_id := some u
  player2_id := none
  player1_username := some uname
  player2_username := none
  player1_symbol := p1s
  player2_symbol := p2s
  game_over := false
  winner := none
  waiting_for_second_player := true
  player1_wins := 0
  player2_wins := 0

/-- `games[user_id][game_id] = new_game`, creating the user bucket when missing
(lines 512-515). -/
def addGame (reg : Registry) (u : Nat) (gid : String) (g : Game) : Registry :=
  match lookupU reg u with
  | some _ => setGame reg u gid g
  | none => reg ++ [(u, [(gid, g)])]

/-- `join_challenge_callback` from `src/main.py` (lines 487-613): the state change
and the distinct answer sent to the clicking user. -/
def join_challenge_callback (reg : Registry) (gid : String) (u : Nat)
    (uname p1s p2s : String) : JoinOutcome × Registry :=
  match find_game_by_id reg gid with
  | none => (.createdSeat1, addGame reg u gid (new_game u uname p1s p2s))
  | some (owner, g) =>
    if g.player1_id = some u then (.alreadySeat1, reg)
    else if g.player2_id = some u then (.alreadySeat2, reg)
    else if g.waiting_for_second_player = false then (.fullOrFinished, reg)
    else if g.player2_id ≠ none then (.fullTwoPlayers, reg)
    else
      (.joinedSeat2, setGame reg owner gid
        { g with player2_id := some u, player2_username := some uname,
                 waiting_for_second_player := false })

/-- The distinct answers of `game_move_callback`; `fault` models a Python exception
(such as the `IndexError` of an out-of-range board index) escaping the handler into
the generic `safe_callback_handler` wrapper. -/
inductive MoveOutcome
  | notFound
  | gameOver
  | notReady
  | notYourTurn
  | cellOccupied
  | fault
  | accepted
deriving DecidableEq, Repr

/-- Python indexing of a 9-element list: a nonnegative index below 9 reads directly,
`-9..-1` reads from the end, and any other index raises `IndexError` (here `none`). -/
def pyIdx (p : Int) : Option Nat :=
  if 0 ≤ p ∧ p < 9 then some p.toNat
  else if -9 ≤ p ∧ p < 0 then some (p + 9).toNat
  else none

/-- The local `current_symbol` of `game_move_callback` (line 644): the symbol of the
seat on turn. -/
def turn_symbol (g : Game) : String :=
  if g.current_player = "X" then g.player1_symbol else g.player2_symbol

/-- Line 660 of `src/main.py`: the board after `board[position] = current_symbol`. -/
def placed_board (g : Game) (i : Nat) : Board := g.board.set i (turn_symbol g)

/-- Lines 663-711 of `src/main.py`: the game after an accepted placement at cell `i`;
a win freezes the game, records the winner and increments the win counter of the
seat owning the winning symbol; a full board freezes the game; otherwise the turn
flips. -/
def move_result (g : Game) (i : Nat) : Game :=
  match check_winner (placed_board g i) with
  | some w =>
    { g with board := placed_board g i, game_over := true, winner := some w,
             player1_wins := if w = g.player1_symbol then g.player1_wins + 1 else g.player1_wins,
             player2_wins := if w = g.player1_symbol then g.player2_wins else g.player2_wins + 1 }
  | none =>
    if is_board_full (placed_board g i) then
      { g with board := placed_board g i, game_over := true }
    else
      { g with board := placed_board g i,
               current_player := if g.current_player = "X" then "O" else "X" }

/-- `game_move_callback` from `src/main.py` (lines 615-729): existence, game-over,
waiting, turn-ownership and occupancy checks in source order, each rejection
returning before any mutation. -/
def game_move_callback (reg : Registry) (gid : String) (u : Nat) (p : Int) :
    MoveOutcome × Registry :=
  match find_game_by_id reg gid with
  | none => (.notFound, reg)
  | some (owner, g) =>
    if g.game_over then (.gameOver, reg)
    else if g.waiting_for_second_player then (.notReady, reg)
    else if g.current_player = "X" ∧ g.player1_id ≠ some u then (.notYourTurn, reg)
    else if g.current_player = "O" ∧ g.player2_id ≠ some u then (.notYourTurn, reg)
    else
      match pyIdx p with
      | none => (.fault, reg)
      | some i =>
        if cell g.board i ≠ "" then (.cellOccupied, reg)
        else (.accepted, setGame reg owner gid (move_result g i))

/-- The distinct answers of `delete_game_callback`. -/
inductive DeleteOutcome
  | deleted
  | notFoundAlert
deriving DecidableEq, Repr

/-- `delete_game_callback` from `src/main.py` (lines 751-801). The `requester`
argument is the id of the clicking user, which the handler body never reads. -/
def delete_game_callback (reg : Registry) (gid : String) (requester : Nat) :
    DeleteOutcome × Registry :=
  match find_game_by_id reg gid with
  | some (owner, _) => (.deleted, delReg reg owner gid)
  | none => (.notFoundAlert, reg)

/-- The distinct answers of `reset_game_callback`. -/
inductive ResetOutcome
  | notFoundR
  | swapReset
  | reshowJoin
deriving DecidableEq, Repr

/-- Python truthiness of `game_data.get('playerN_id')`: `None` and `0` are falsy. -/
def truthyId : Option Nat → Bool
  | none => false
  | some n => n != 0

/-- The swapped game dict of `reset_game_callback` (lines 825-839): the identities,
usernames and symbols swap seats; the stored win counters stay at their seat index. -/
def swap_game (old : Game) : Game where
  board := List.replicate 9 ""
  current_player := "X"
  player1_id := old.player2_id
  player2_id := old.player1_id
  player1_username := old.player2_username
  player2_username := old.player1_username
  player1_symbol := old.player2_symbol
  player2_symbol := old.player1_symbol
  game_over := false
  winner := none
  waiting_for_second_player := false
  player1_wins := old.player1_wins
  player2_wins := old.player2_wins

/-- The win counts the reset message text pairs with the new seat1 and seat2 lines
(lines 851-852 of `src/main.py`): the new seat1 line shows the old `player2_wins`
and the new seat2 line the old `player1_wins`. -/
def reset_stats_text (old : Game) : Nat × Nat := (old.player2_wins, old.player1_wins)

/-- Whether a reset outcome is answered as an error alert: only the missing-session
case is; the other two branches answer the same success toast (line 885). -/
def reset_is_error : ResetOutcome → Bool
  | .notFoundR => true
  | _ => false

/-- `reset_game_callback` from `src/main.py` (lines 803-888). -/
def reset_game_callback (reg : Registry) (gid : String) : ResetOutcome × Registry :=
  match find_game_by_id reg gid with
  | none => (.notFoundR, reg)
  | some (owner, old) =>
    if truthyId old.player1_id && truthyId old.player2_id then
      (.swapReset, setGame reg owner gid (swap_game old))
    else
      (.reshowJoin, reg)

/-- Well-formedness the Python dict representation guarantees: the user keys are
distinct, and the game ids inside each bucket are distinct. -/
def RegWF (reg : Registry) : Prop :=
  (reg.map Prod.fst).Nodup ∧ ∀ e ∈ reg, ((e.2.map Prod.fst).Nodup)

/-- How many user buckets contain `gid`. -/
def gid_buckets (reg : Registry) (gid : String) : Nat :=
  reg.countP (fun e => (lookupG e.2 gid).isSome)

/-- A concrete mid-game session: seat1 = user 1 (symbol x, 2 wins, on turn),
seat2 = user 2 (symbol o, 0 wins), cell 4 occupied by x. -/
def gEx : Game where
  board := ["", "", "", "", "x", "", "", "", ""]
  current_player := "X"
  player1_id := some 1
  player2_id := some 2
  player1_username := some "A"
  player2_username := some "B"
  player1_symbol := "x"
  player2_symbol := "o"
  game_over := false
  winner := none
  waiting_for_second_player := false
  player1_wins := 2
  player2_wins := 0

/-- A registry holding `gEx` under id g, owned by user 1. -/
def regEx : Registry := [(1, [("g", gEx)])]

/-- A session still awaiting its second player. -/
def gAwait : Game := new_game 1 "A" "x" "o"

/-- A registry holding `gAwait` under id w. -/
def regAwait : Registry := [(1, [("w", gAwait)])]

/-- A session one move away from an x win on row 0-1-2 (x on turn). -/
def gRace : Game :=
  { gEx with board := ["x", "x", "", "o", "o", "", "", "", ""],
             player1_wins := 0, player2_wins := 0 }

/-- A registry holding `gRace` under id r, owned by user 7. -/
def regRace : Registry := [(7, [("r", gRace)])]

/-- A fresh in-progress session with an empty board (x on turn). -/
def gOpen : Game := { gEx with board := List.replicate 9 "" }

/-- A registry holding `gOpen` under id w, owned by user 5. -/
def regOpen : Registry := [(5, [("w", gOpen)])]

/-- A registry holding `gAwait` under id d, owned by user 3 (for delete tests). -/
def regDel : Registry := [(3, [("d", gAwait)])]

/-! Helper lemmas about the winner scan. -/

theorem find_line_isSome (b : Board) :
    ∀ ls : List (Nat × Nat × Nat),
      (find_line b ls).isSome = true ↔ ∃ l ∈ ls, lineMatches b l := by
  intro ls
  induction ls with
  | nil => simp [find_line]
  | cons l ls ih =>
    by_cases h : lineMatches b l
    · simp [find_line, line_winner, h]
    · simp only [find_line, line_winner, if_neg h]
      simp [ih, h]

theorem find_line_first (b : Board) :
    ∀ (ls₁ : List (Nat × Nat × Nat)) (l : Nat × Nat × Nat) (ls₂ : List (Nat × Nat × Nat)),
      lineMatches b l → (∀ x ∈ ls₁, ¬ lineMatches b x) →
      find_line b (ls₁ ++ l :: ls₂) = some (cell b l.1) := by
  intro ls₁
  induction ls₁ with
  | nil =>
    intro l ls₂ hm _
    simp [find_line, line_winner, hm]
  | cons a t ih =>
    intro l ls₂ hm hnone
    have ha : ¬ lineMatches b a := hnone a (by simp)
    simp only [List.cons_append, find_line, line_winner, if_neg ha]
    exact ih l ls₂ hm (fun x hx => hnone x (by simp [hx]))

/-- Claim C5: for every board, `check_winner` returns a symbol iff some row, column,
or diagonal is uniform and non-empty (otherwise it returns none), and when several
triples match simultaneously it returns, without crashing, the occupant of the first
matching triple in row-then-column-then-diagonal order. -/
theorem checkWinner_spec (b : Board) :
    ((check_winner b).isSome = true ↔ ∃ l ∈ winning_lines, lineMatches b l) ∧
    (∀ (ls₁ : List (Nat × Nat × Nat)) (l : Nat × Nat × Nat) (ls₂ : List (Nat × Nat × Nat)),
      winning_lines = ls₁ ++ l :: ls₂ → lineMatches b l →
      (∀ x ∈ ls₁, ¬ lineMatches b x) → check_winner b = some (cell b l.1)) := by
  constructor
  · exact find_line_isSome b winning_lines
  · intro ls₁ l ls₂ hdec hm hnone
    rw [check_winner, hdec]
    exact find_line_first b ls₁ l ls₂ hm hnone

/-- Witness for C5: on the all-x board several triples match and `check_winner`
returns the occupant of the first row. -/
theorem checkWinner_spec_witness :
    check_winner ["x", "x", "x", "x", "x", "x", "x", "x", "x"] = some "x" := by
  have h := (checkWinner_spec ["x", "x", "x", "x", "x", "x", "x", "x", "x"]).2
    [] (0, 1, 2) [(3, 4, 5), (6, 7, 8), (0, 3, 6), (1, 4, 7), (2, 5, 8), (0, 4, 8), (2, 4, 6)]
    rfl (by decide) (by simp)
  simpa [cell] using h

/-! Helper lemmas about the two-level registry. -/

theorem lookupG_eq_none_of_not_mem :
    ∀ (ug : List (String × Game)) (gid : String),
      gid ∉ ug.map Prod.fst → lookupG ug gid = none := by
  intro ug gid h
  induction ug with
  | nil => rfl
  | cons a t ih =>
    obtain ⟨k, v⟩ := a
    simp only [List.map_cons, List.mem_cons, not_or] at h
    simp only [lookupG, if_neg (Ne.symm h.1)]
    exact ih h.2

theorem lookupG_removeG_self :
    ∀ (ug : List (String × Game)) (gid : String),
      (ug.map Prod.fst).Nodup → lookupG (removeG ug gid) gid = none := by
  intro ug gid h
  induction ug with
  | nil => rfl
  | cons a t ih =>
    obtain ⟨k, v⟩ := a
    simp only [List.map_cons, List.nodup_cons] at h
    by_cases hk : k = gid
    · simp only [removeG, if_pos hk]
      exact lookupG_eq_none_of_not_mem t gid (hk ▸ h.1)
    · simp only [removeG, if_neg hk, lookupG, if_neg hk]
      exact ih h.2

theorem lookupG_setG_self :
    ∀ (ug : List (String × Game)) (gid : String) (g : Game),
      lookupG (setG ug gid g) gid = some g := by
  intro ug gid g
  induction ug with
  | nil => simp [setG, lookupG]
  | cons a t ih =>
    obtain ⟨k, v⟩ := a
    by_cases hk : k = gid
    · simp [setG, if_pos hk, lookupG, hk]
    · simp only [setG, if_neg hk, lookupG, if_neg hk]
      exact ih

theorem find_some_mem :
    ∀ (reg : Registry) (gid : String) (owner : Nat) (g : Game),
      find_game_by_id reg gid = some (owner, g) → owner ∈ reg.map Prod.fst := by
  intro reg gid owner g h
  induction reg with
  | nil => simp [find_game_by_id] at h
  | cons a t ih =>
    obtain ⟨u, ug⟩ := a
    simp only [find_game_by_id] at h
    cases hl : lookupG ug gid with
    | some g0 =>
      rw [hl] at h
      simp only [Option.some.injEq, Prod.mk.injEq] at h
      simp [h.1]
    | none =>
      rw [hl] at h
      simp only [List.map_cons, List.mem_cons]
      exact Or.inr (ih h)

theorem find_setGame_self :
    ∀ (reg : Registry) (gid : String) (owner : Nat) (g g2 : Game),
      (reg.map Prod.fst).Nodup →
      find_game_by_id reg gid = some (owner, g) →
      find_game_by_id (setGame reg owner gid g2) gid = some (owner, g2) := by
  intro reg gid owner g g2 hn h
  induction reg with
  | nil => simp [find_game_by_id] at h
  | cons a t ih =>
    obtain ⟨u, ug⟩ := a
    simp only [List.map_cons, List.nodup_cons] at hn
    simp only [find_game_by_id] at h
    cases hl : lookupG ug gid with
    | some g0 =>
      rw [hl] at h
      simp only [Option.some.injEq, Prod.mk.injEq] at h
      obtain ⟨hu, _⟩ := h
      subst hu
      simp only [setGame, if_pos rfl, find_game_by_id, lookupG_setG_self]
    | none =>
      rw [hl] at h
      have hmem : owner ∈ t.map Prod.fst := find_some_mem t gid owner g h
      have hne : u ≠ owner := fun e => hn.1 (e ▸ hmem)
      simp only [setGame, if_neg hne, find_game_by_id, hl]
      exact ih hn.2 h

theorem lookupU_eq_none_of_not_mem :
    ∀ (reg : Registry) (owner : Nat),
      owner ∉ reg.map Prod.fst → lookupU reg owner = none := by
  intro reg owner h
  induction reg with
  | nil => rfl
  | cons a t ih =>
    obtain ⟨u, ug⟩ := a
    simp only [List.map_cons, List.mem_cons, not_or] at h
    simp only [lookupU, if_neg (Ne.symm h.1)]
    exact ih h.2

theorem find_none_of_buckets_zero :
    ∀ (reg : Registry) (gid : String),
      gid_buckets reg gid = 0 → find_game_by_id reg gid = none := by
  intro reg gid h
  induction reg with
  | nil => rfl
  | cons a t ih =>
    obtain ⟨u, ug⟩ := a
    simp only [gid_buckets, List.countP_cons] at h
    by_cases hb : (lookupG ug gid).isSome = true
    · simp [hb] at h
    · have hl : lookupG ug gid = none := Option.not_isSome_iff_eq_none.mp hb
      simp only [find_game_by_id, hl]
      apply ih
      simp only [gid_buckets]
      simp only [hl, Option.isSome_none] at h
      simpa using h

theorem find_delReg_none :
    ∀ (reg : Registry) (gid : String) (owner : Nat) (g : Game),
      (reg.map Prod.fst).Nodup →
      (∀ e ∈ reg, (e.2.map Prod.fst).Nodup) →
      gid_buckets reg gid ≤ 1 →
      find_game_by_id reg gid = some (owner, g) →
      find_game_by_id (delReg reg owner gid) gid = none := by
  intro reg gid owner g hn hb hc h
  induction reg with
  | nil => simp [find_game_by_id] at h
  | cons a t ih =>
    obtain ⟨u, ug⟩ := a
    simp only [List.map_cons, List.nodup_cons] at hn
    simp only [find_game_by_id] at h
    cases hl : lookupG ug gid with
    | some g0 =>
      rw [hl] at h
      simp only [Option.some.injEq, Prod.mk.injEq] at h
      obtain ⟨hu, _⟩ := h
      subst hu
      have htz : gid_buckets t gid = 0 := by
        simp only [gid_buckets, List.countP_cons] at hc
        simp only [hl, Option.isSome_some, if_pos] at hc
        simp only [gid_buckets]
        omega
      have hft : find_game_by_id t gid = none := find_none_of_buckets_zero t gid htz
      have hug : (ug.map Prod.fst).Nodup := hb (u, ug) (by simp)
      have hrg : lookupG (removeG ug gid) gid = none := lookupG_removeG_self ug gid hug
      simp only [delReg, if_pos rfl]
      by_cases he : removeG ug gid = []
      · simp only [if_pos he]
        exact hft
      · simp only [if_neg he, find_game_by_id, hrg]
        exact hft
    | none =>
      rw [hl] at h
      have hmem : owner ∈ t.map Prod.fst := find_some_mem t gid owner g h
      have hne : u ≠ owner := fun e => hn.1 (e ▸ hmem)
      simp only [delReg, if_neg hne, find_game_by_id, hl]
      apply ih hn.2 (fun e he => hb e (by simp [he])) _ h
      simp only [gid_buckets, List.countP_cons, hl] at hc ⊢
      simpa using hc

theorem lookupU_delReg :
    ∀ (reg : Registry) (owner : Nat) (gid : String) (ug : List (String × Game)),
      (reg.map Prod.fst).Nodup →
      lookupU reg owner = some ug →
      lookupU (delReg reg owner gid) owner =
        (if removeG ug gid = [] then none else some (removeG ug gid)) := by
  intro reg owner gid ug hn h
  induction reg with
  | nil => simp [lookupU] at h
  | cons a t ih =>
    obtain ⟨u, ug0⟩ := a
    simp only [List.map_cons, List.nodup_cons] at hn
    simp only [lookupU] at h
    by_cases hu : u = owner
    · subst hu
      rw [if_pos rfl] at h
      simp only [Option.some.injEq] at h
      rw [← h]
      simp only [delReg, if_pos rfl]
      by_cases he : removeG ug0 gid = []
      · simp only [if_pos he]
        exact lookupU_eq_none_of_not_mem t u hn.1
      · simp [if_neg he, lookupU]
    · rw [if_neg hu] at h
      simp only [delReg, if_neg hu, lookupU, if_neg hu]
      exact ih hn.2 h

/-! Helper lemmas about indexing and an accepted move. -/

theorem pyIdx_lt (p : Int) (i : Nat) (h : pyIdx p = some i) : i < 9 := by
  unfold pyIdx at h
  by_cases h1 : 0 ≤ p ∧ p < 9
  · rw [if_pos h1] at h
    simp only [Option.some.injEq] at h
    omega
  · rw [if_neg h1] at h
    by_cases h2 : -9 ≤ p ∧ p < 0
    · rw [if_pos h2] at h
      simp only [Option.some.injEq] at h
      omega
    · rw [if_neg h2] at h
      exact absurd h (by simp)

theorem cell_set_self :
    ∀ (b : Board) (i : Nat) (s : String), i < b.length → cell (b.set i s) i = s := by
  intro b
  induction b with
  | nil => intro i s h; simp at h
  | cons a t ih =>
    intro i s h
    cases i with
    | zero => rfl
    | succ j =>
      simp only [List.length_cons, Nat.succ_lt_succ_iff] at h
      simp only [List.set, cell, List.getD]
      have := ih j s h
      simpa [cell, List.getD] using this

theorem move_result_board (g : Game) (i : Nat) :
    (move_result g i).board = placed_board g i := by
  unfold move_result
  split
  · rfl
  · split <;> rfl

theorem move_result_player1_id (g : Game) (i : Nat) :
    (move_result g i).player1_id = g.player1_id := by
  unfold move_result
  split
  · rfl
  · split <;> rfl

theorem move_result_player2_id (g : Game) (i : Nat) :
    (move_result g i).player2_id = g.player2_id := by
  unfold move_result
  split
  · rfl
  · split <;> rfl

theorem move_result_waiting (g : Game) (i : Nat) :
    (move_result g i).waiting_for_second_player = g.waiting_for_second_player := by
  unfold move_result
  split
  · rfl
  · split <;> rfl

theorem move_result_player1_symbol (g : Game) (i : Nat) :
    (move_result g i).player1_symbol = g.player1_symbol := by
  unfold move_result
  split
  · rfl
  · split <;> rfl

theorem move_result_player2_symbol (g : Game) (i : Nat) :
    (move_result g i).player2_symbol = g.player2_symbol := by
  unfold move_result
  split
  · rfl
  · split <;> rfl

theorem move_result_over_or_flip (g : Game) (i : Nat) :
    (move_result g i).game_over = true ∨
      ((move_result g i).game_over = g.game_over ∧
        (move_result g i).current_player = (if g.current_player = "X" then "O" else "X")) := by
  unfold move_result
  split
  · exact Or.inl rfl
  · split
    · exact Or.inl rfl
    · exact Or.inr ⟨rfl, rfl⟩

/-- Claim C2 (amended): move validation proceeds in the order session existence
(notFound), then GameOver, then NotReady, then turn ownership (notYourTurn), then
occupancy of the target cell (cellOccupied), short-circuiting at the first failing
check, and the five error codes are pairwise distinct. (The claim as frozen puts
occupancy before turn ownership; the code checks turn ownership first, see the
counterexample.) -/
theorem move_validation_order_thm (reg : Registry) (gid : String) (u : Nat) (p : Int) :
    (find_game_by_id reg gid = none →
      game_move_callback reg gid u p = (.notFound, reg)) ∧
    (∀ owner g, find_game_by_id reg gid = some (owner, g) →
      ((g.game_over = true → game_move_callback reg gid u p = (.gameOver, reg)) ∧
       (g.game_over = false → g.waiting_for_second_player = true →
          game_move_callback reg gid u p = (.notReady, reg)) ∧
       (g.game_over = false → g.waiting_for_second_player = false →
          ((g.current_player = "X" ∧ g.player1_id ≠ some u) ∨
           (g.current_player = "O" ∧ g.player2_id ≠ some u)) →
          game_move_callback reg gid u p = (.notYourTurn, reg)) ∧
       (g.game_over = false → g.waiting_for_second_player = false →
          ¬(g.current_player = "X" ∧ g.player1_id ≠ some u) →
          ¬(g.current_player = "O" ∧ g.player2_id ≠ some u) →
          ∀ i, pyIdx p = some i → cell g.board i ≠ "" →
          game_move_callback reg gid u p = (.cellOccupied, reg)))) ∧
    ([MoveOutcome.notFound, .gameOver, .notReady, .notYourTurn, .cellOccupied].Nodup) := by
  refine ⟨?_, ?_, by decide⟩
  · intro h
    simp [game_move_callback, h]
  · intro owner g hf
    refine ⟨?_, ?_, ?_, ?_⟩
    · intro hgo
      simp [game_move_callback, hf, hgo]
    · intro hgo hw
      simp [game_move_callback, hf, hgo, hw]
    · intro hgo hw htn
      rcases htn with ⟨hx, hne⟩ | ⟨ho, hne⟩
      · simp [game_move_callback, hf, hgo, hw, hx, hne]
      · have hxne : g.current_player ≠ "X" := by rw [ho]; decide
        simp [game_move_callback, hf, hgo, hw, hxne, ho, hne]
    · intro hgo hw h1 h2 i hp hc
      simp [game_move_callback, hf, hgo, hw, h1, h2, hp, hc]

/-- Counterexample for C2 as frozen: on `gEx` the target cell 4 is occupied and
user 2 is not on turn; the claimed order (occupancy before turn) would report
cellOccupied, but the code reports notYourTurn. -/
theorem move_order_counterexample :
    cell gEx.board 4 ≠ "" ∧ gEx.game_over = false ∧
    gEx.waiting_for_second_player = false ∧
    (game_move_callback regEx "g" 2 4).1 = .notYourTurn ∧
    MoveOutcome.notYourTurn ≠ .cellOccupied := by decide

/-- Witness for C2: the theorem instantiated on `regEx` for the off-turn user 2. -/
theorem move_validation_order_thm_witness :
    game_move_callback regEx "g" 2 4 = (.notYourTurn, regEx) := by
  have h := ((move_validation_order_thm regEx "g" 2 4).2.1 1 gEx rfl).2.2.1
  exact h rfl rfl (Or.inl ⟨rfl, by decide⟩)

/-- Claim C3 (amended): a move whose position falls outside Python list-index range
(below -9 or above 8), on an in-progress session with the requester on turn, reaches
the board access and raises an IndexError, modelled as the `fault` outcome caught
only by the generic wrapper; the registry is unchanged. No OutOfRange code exists. -/
theorem out_of_range_fault_thm (reg : Registry) (gid : String) (owner : Nat) (g : Game)
    (u : Nat) (p : Int)
    (hf : find_game_by_id reg gid = some (owner, g))
    (hgo : g.game_over = false) (hw : g.waiting_for_second_player = false)
    (h1 : ¬(g.current_player = "X" ∧ g.player1_id ≠ some u))
    (h2 : ¬(g.current_player = "O" ∧ g.player2_id ≠ some u))
    (hp : pyIdx p = none) :
    game_move_callback reg gid u p = (.fault, reg) := by
  simp [game_move_callback, hf, hgo, hw, h1, h2, hp]

/-- Counterexample for C3 as frozen: position 10 on the in-progress `gEx` with the
on-turn user 1 produces the fault outcome (an exception, not one of the reported
error answers), and position -1 (also outside 0..8) is silently accepted as a move
on cell 8 by Python negative indexing; no OutOfRange answer exists in the handler. -/
theorem out_of_range_counterexample :
    (game_move_callback regEx "g" 1 10).1 = .fault ∧
    MoveOutcome.fault ∉
      [MoveOutcome.notFound, .gameOver, .notReady, .notYourTurn, .cellOccupied] ∧
    (game_move_callback regEx "g" 1 (-1)).1 = .accepted := by decide

/-- Witness for C3: the amended theorem instantiated at position 10 on `regEx`. -/
theorem out_of_range_fault_thm_witness :
    game_move_callback regEx "g" 1 10 = (.fault, regEx) :=
  out_of_range_fault_thm regEx "g" 1 gEx 1 10 rfl rfl rfl (by decide) (by decide) (by decide)

/-- Claim C6: every rejected move (any outcome other than an accepted placement,
including unknown session, finished game, waiting session, wrong turn, occupied
cell, and even the out-of-range fault) leaves the registry, and hence every field
of every session record, unchanged. -/
theorem rejected_move_no_mutation (reg : Registry) (gid : String) (u : Nat) (p : Int)
    (h : (game_move_callback reg gid u p).1 ≠ .accepted) :
    (game_move_callback reg gid u p).2 = reg := by
  unfold game_move_callback at h ⊢
  cases hf : find_game_by_id reg gid with
  | none => simp [hf]
  | some og =>
    obtain ⟨owner, g⟩ := og
    by_cases hgo : g.game_over = true
    · simp [hf, hgo]
    · by_cases hw : g.waiting_for_second_player = true
      · simp [hf, hgo, hw]
      · by_cases h1 : (g.current_player = "X" ∧ g.player1_id ≠ some u)
        · simp [hf, hgo, hw, h1]
        · by_cases h2 : (g.current_player = "O" ∧ g.player2_id ≠ some u)
          · simp [hf, hgo, hw, h1, h2]
          · cases hp : pyIdx p with
            | none => simp [hf, hgo, hw, h1, h2, hp]
            | some i =>
              by_cases hc : cell g.board i ≠ ""
              · simp [hf, hgo, hw, h1, h2, hp, hc]
              · exfalso
                apply h
                simp [hf, hgo, hw, h1, h2, hp, hc]

/-- Witness for C6: the off-turn rejection on `regEx` leaves the registry unchanged. -/
theorem rejected_move_no_mutation_witness :
    (game_move_callback regEx "g" 2 4).2 = regEx :=
  rejected_move_no_mutation regEx "g" 2 4 (by decide)

/-- Claim C7: on a session with both seats occupied (and hence, as the code always
maintains, the waiting flag cleared), a further join by the seat1 occupant, by the
seat2 occupant, or by a third distinct identity is rejected with three pairwise
distinct answers (already seat1, already seat2, session full), each leaving the
registry unchanged; in particular a third identity never silently succeeds. -/
theorem join_full_session_thm (reg : Registry) (gid : String) (owner : Nat) (g : Game)
    (u1 u2 w : Nat) (uname p1s p2s : String)
    (hf : find_game_by_id reg gid = some (owner, g))
    (h1 : g.player1_id = some u1) (h2 : g.player2_id = some u2)
    (hw : g.waiting_for_second_player = false)
    (h21 : u2 ≠ u1) (hw1 : w ≠ u1) (hw2 : w ≠ u2) :
    join_challenge_callback reg gid u1 uname p1s p2s = (.alreadySeat1, reg) ∧
    join_challenge_callback reg gid u2 uname p1s p2s = (.alreadySeat2, reg) ∧
    join_challenge_callback reg gid w uname p1s p2s = (.fullOrFinished, reg) ∧
    [JoinOutcome.alreadySeat1, .alreadySeat2, .fullOrFinished].Nodup := by
  refine ⟨?_, ?_, ?_, by decide⟩
  · simp [join_challenge_callback, hf, h1]
  · have hne : g.player1_id ≠ some u2 := by
      rw [h1]
      exact fun e => h21 (Option.some.inj e).symm
    simp [join_challenge_callback, hf, hne, h2]
  · have e1 : g.player1_id ≠ some w := by rw [h1]; simp [Ne.symm hw1]
    have e2 : g.player2_id ≠ some w := by rw [h2]; simp [Ne.symm hw2]
    simp [join_challenge_callback, hf, e1, e2, hw]

/-- Witness for C7: the three rejections on the full session `gEx`. -/
theorem join_full_session_thm_witness :
    join_challenge_callback regEx "g" 1 "n" "x" "o" = (.alreadySeat1, regEx) ∧
    join_challenge_callback regEx "g" 2 "n" "x" "o" = (.alreadySeat2, regEx) ∧
    join_challenge_callback regEx "g" 9 "n" "x" "o" = (.fullOrFinished, regEx) := by
  have h := join_full_session_thm regEx "g" 1 gEx 1 2 9 "n" "x" "o"
    rfl rfl rfl rfl (by decide) (by decide) (by decide)
  exact ⟨h.1, h.2.1, h.2.2.1⟩

/-- Claim C4 (amended): a reset from a session with both seats occupied replaces it
under the same id by the swapped game with an empty board, turn seat1 (x moves
first) and an in-progress phase; a reset attempted before the second seat is filled
leaves the registry unchanged and is not answered as an error (the handler
re-renders the join affordance with the same success toast as a real reset -- there
is no IncompleteRoster error in the code). -/
theorem reset_roster_thm (reg : Registry) (gid : String) (owner : Nat) (g : Game)
    (hn : (reg.map Prod.fst).Nodup)
    (hf : find_game_by_id reg gid = some (owner, g)) :
    (truthyId g.player1_id = true → truthyId g.player2_id = true →
      (reset_game_callback reg gid).1 = .swapReset ∧
      find_game_by_id (reset_game_callback reg gid).2 gid = some (owner, swap_game g) ∧
      (swap_game g).board = List.replicate 9 "" ∧
      (swap_game g).current_player = "X" ∧
      (swap_game g).game_over = false ∧
      (swap_game g).waiting_for_second_player = false) ∧
    (truthyId g.player2_id = false →
      reset_game_callback reg gid = (.reshowJoin, reg) ∧
      reset_is_error (reset_game_callback reg gid).1 = false) := by
  constructor
  · intro ht1 ht2
    have hcond : (truthyId g.player1_id && truthyId g.player2_id) = true := by
      rw [ht1, ht2]; rfl
    have hr : reset_game_callback reg gid =
        (.swapReset, setGame reg owner gid (swap_game g)) := by
      simp [reset_game_callback, hf, hcond]
    rw [hr]
    exact ⟨rfl, find_setGame_self reg gid owner g (swap_game g) hn hf, rfl, rfl, rfl, rfl⟩
  · intro ht2
    have hcond : (truthyId g.player1_id && truthyId g.player2_id) = false := by
      rw [ht2]; simp
    have hr : reset_game_callback reg gid = (.reshowJoin, reg) := by
      simp [reset_game_callback, hf, hcond]
    exact ⟨hr, by rw [hr]; rfl⟩

/-- Counterexample for C4 as frozen: resetting the awaiting-second-player session
`gAwait` is not rejected with any error answer (only the missing-session outcome is
an error alert); the handler leaves the session untouched and reports the same
success toast as a completed reset. -/
theorem reset_incomplete_counterexample :
    (reset_game_callback regAwait "w").1 = .reshowJoin ∧
    reset_is_error (reset_game_callback regAwait "w").1 = false ∧
    (reset_game_callback regAwait "w").2 = regAwait ∧
    ResetOutcome.reshowJoin ≠ .notFoundR := by decide

/-- Witness for C4: the amended theorem instantiated on the full session `gEx`. -/
theorem reset_roster_thm_witness :
    (reset_game_callback regEx "g").1 = .swapReset ∧
    find_game_by_id (reset_game_callback regEx "g").2 "g" = some (1, swap_game gEx) := by
  have h := (reset_roster_thm regEx "g" 1 gEx (by decide) rfl).1 (by decide) (by decide)
  exact ⟨h.1, h.2.1⟩

/-- Claim C1 (code bug, evaluated at the failing input): on `gEx` (seat1 = user 1
with 2 wins, seat2 = user 2 with 0 wins) the reset swaps the identities but leaves
the stored win counters at their seat index, so the new seat1 record binds identity
2 to the 2 wins earned by identity 1; the sum is preserved, and the reset message
itself displays the counters attributed by identity (0 for the new seat1), which
the stored state contradicts. -/
theorem reset_counter_attribution_bug :
    find_game_by_id (reset_game_callback regEx "g").2 "g" = some (1, swap_game gEx) ∧
    gEx.player1_id = some 1 ∧ gEx.player1_wins = 2 ∧
    gEx.player2_id = some 2 ∧ gEx.player2_wins = 0 ∧
    (swap_game gEx).player1_id = some 2 ∧ (swap_game gEx).player1_wins = 2 ∧
    (swap_game gEx).player2_id = some 1 ∧ (swap_game gEx).player2_wins = 0 ∧
    (swap_game gEx).player1_wins + (swap_game gEx).player2_wins =
      gEx.player1_wins + gEx.player2_wins ∧
    reset_stats_text gEx = (0, 2) ∧
    (swap_game gEx).player1_wins ≠ (reset_stats_text gEx).1 := by decide

/-- Claim C8: deleting an existing id removes the session from the registry, removes
the creator bucket exactly when it becomes empty, answers not-found without mutation
on an absent id, and is idempotent (a second delete of the same id is the not-found
no-op). Hypotheses state what the Python dict representation guarantees: distinct
keys and at most one bucket holding the id. -/
theorem delete_registry_thm (reg : Registry) (gid : String) (r : Nat)
    (hwf : RegWF reg) (hu : gid_buckets reg gid ≤ 1) :
    (find_game_by_id reg gid = none →
      delete_game_callback reg gid r = (.notFoundAlert, reg)) ∧
    (∀ owner g, find_game_by_id reg gid = some (owner, g) →
      (delete_game_callback reg gid r).1 = .deleted ∧
      find_game_by_id (delete_game_callback reg gid r).2 gid = none ∧
      (∀ ug, lookupU reg owner = some ug →
        lookupU (delete_game_callback reg gid r).2 owner =
          (if removeG ug gid = [] then none else some (removeG ug gid))) ∧
      delete_game_callback (delete_game_callback reg gid r).2 gid r =
        (.notFoundAlert, (delete_game_callback reg gid r).2)) := by
  obtain ⟨hn, hb⟩ := hwf
  constructor
  · intro h
    simp [delete_game_callback, h]
  · intro owner g hf
    have hdel : delete_game_callback reg gid r = (.deleted, delReg reg owner gid) := by
      simp [delete_game_callback, hf]
    rw [hdel]
    have hfd : find_game_by_id (delReg reg owner gid) gid = none :=
      find_delReg_none reg gid owner g hn hb hu hf
    refine ⟨rfl, hfd, ?_, ?_⟩
    · intro ug hlu
      exact lookupU_delReg reg owner gid ug hn hlu
    · simp [delete_game_callback, hfd]

/-- Witness for C8: deleting the only session of user 3 removes both the session and
the emptied creator bucket. -/
theorem delete_registry_thm_witness :
    (delete_game_callback regDel "d" 42).1 = .deleted ∧
    find_game_by_id (delete_game_callback regDel "d" 42).2 "d" = none ∧
    lookupU (delete_game_callback regDel "d" 42).2 3 = none := by
  have h := (delete_registry_thm regDel "d" 42 ⟨by decide, by decide⟩ (by decide)).2
    3 gAwait rfl
  refine ⟨h.1, h.2.1, ?_⟩
  have h3 := h.2.2.1 [("d", gAwait)] rfl
  rw [if_pos (show removeG [("d", gAwait)] "d" = [] by decide)] at h3
  exact h3

/-- Claim C10: the delete handler never reads the requester identity -- any two
requesters produce identical outcomes and successor registries -- and an existing
session is removed whoever asks, so a third party delete has exactly the effect of
a participant delete. -/
theorem delete_ignores_requester_thm (reg : Registry) (gid : String) (u v : Nat) :
    delete_game_callback reg gid u = delete_game_callback reg gid v ∧
    (RegWF reg → gid_buckets reg gid ≤ 1 →
      ∀ owner g, find_game_by_id reg gid = some (owner, g) →
        find_game_by_id (delete_game_callback reg gid u).2 gid = none) := by
  refine ⟨rfl, ?_⟩
  intro hwf hu owner g hf
  have hdel : delete_game_callback reg gid u = (.deleted, delReg reg owner gid) := by
    simp [delete_game_callback, hf]
  rw [hdel]
  exact find_delReg_none reg gid owner g hwf.1 hwf.2 hu hf

/-- Witness for C10: two unrelated requesters, 7 and 8 (neither occupies a seat of
`gAwait`), get the identical delete effect, and the session is gone. -/
theorem delete_ignores_requester_thm_witness :
    delete_game_callback regDel "d" 7 = delete_game_callback regDel "d" 8 ∧
    find_game_by_id (delete_game_callback regDel "d" 7).2 "d" = none := by
  have h := delete_ignores_requester_thm regDel "d" 7 8
  exact ⟨h.1, h.2 ⟨by decide, by decide⟩ (by decide) 3 gAwait rfl⟩

/-- Claim C9 (amended): the handler validates and mutates without yielding control,
so the two racing clicks on the same empty cell serialize into one of the two
sequential orders; in each order exactly one click (the on-turn player, identity
u1) is accepted, the other is rejected -- with cellOccupied, or gameOver when the
accepted move finished the game, when it arrives second, and with notYourTurn when
it arrives first -- and the raced cell is written exactly once, holding the on-turn
symbol, with no further registry change from the rejected click. (The claim as
frozen allows only NotYourTurn or CellOccupied; the gameOver case is the
counterexample.) -/
theorem race_same_cell_thm (reg : Registry) (gid : String) (owner : Nat) (g : Game)
    (u1 u2 : Nat) (p : Int) (i : Nat)
    (hn : (reg.map Prod.fst).Nodup)
    (hf : find_game_by_id reg gid = some (owner, g))
    (hgo : g.game_over = false) (hw : g.waiting_for_second_player = false)
    (hseat : (g.current_player = "X" ∧ g.player1_id = some u1 ∧ g.player2_id = some u2) ∨
             (g.current_player = "O" ∧ g.player2_id = some u1 ∧ g.player1_id = some u2))
    (hne : u1 ≠ u2)
    (hp : pyIdx p = some i) (hc : cell g.board i = "")
    (hs : turn_symbol g ≠ "") (hlen : g.board.length = 9) :
    ((game_move_callback reg gid u1 p).1 = .accepted ∧
     find_game_by_id (game_move_callback reg gid u1 p).2 gid =
       some (owner, move_result g i) ∧
     cell (move_result g i).board i = turn_symbol g ∧
     ((game_move_callback (game_move_callback reg gid u1 p).2 gid u2 p).1 = .gameOver ∨
      (game_move_callback (game_move_callback reg gid u1 p).2 gid u2 p).1 = .cellOccupied) ∧
     (game_move_callback (game_move_callback reg gid u1 p).2 gid u2 p).2 =
       (game_move_callback reg gid u1 p).2) ∧
    ((game_move_callback reg gid u2 p).1 = .notYourTurn ∧
     (game_move_callback reg gid u2 p).2 = reg) := by
  have hto1 : ¬(g.current_player = "X" ∧ g.player1_id ≠ some u1) := by
    rcases hseat with ⟨hx, hp1, hp2⟩ | ⟨ho, hp2, hp1⟩
    · rintro ⟨_, hh⟩; exact hh (by rw [hp1])
    · rintro ⟨hh, _⟩; rw [ho] at hh; exact absurd hh (by decide)
  have hto2 : ¬(g.current_player = "O" ∧ g.player2_id ≠ some u1) := by
    rcases hseat with ⟨hx, hp1, hp2⟩ | ⟨ho, hp2, hp1⟩
    · rintro ⟨hh, _⟩; rw [hx] at hh; exact absurd hh (by decide)
    · rintro ⟨_, hh⟩; exact hh (by rw [hp2])
  have hm1 : game_move_callback reg gid u1 p =
      (.accepted, setGame reg owner gid (move_result g i)) := by
    simp [game_move_callback, hf, hgo, hw, hto1, hto2, hp, hc]
  have hlt : i < g.board.length := by rw [hlen]; exact pyIdx_lt p i hp
  have hcell : cell (move_result g i).board i = turn_symbol g := by
    rw [move_result_board]
    exact cell_set_self g.board i (turn_symbol g) hlt
  have hfind2 : find_game_by_id (setGame reg owner gid (move_result g i)) gid =
      some (owner, move_result g i) :=
    find_setGame_self reg gid owner g (move_result g i) hn hf
  have hsecond :
      ((game_move_callback (setGame reg owner gid (move_result g i)) gid u2 p).1 =
          MoveOutcome.gameOver ∨
       (game_move_callback (setGame reg owner gid (move_result g i)) gid u2 p).1 =
          MoveOutcome.cellOccupied) ∧
      (game_move_callback (setGame reg owner gid (move_result g i)) gid u2 p).2 =
        setGame reg owner gid (move_result g i) := by
    rcases move_result_over_or_flip g i with hover | ⟨hoeq, hflip⟩
    · constructor
      · left
        simp [game_move_callback, hfind2, hover]
      · simp [game_move_callback, hfind2, hover]
    · have hover2 : (move_result g i).game_over = false := by rw [hoeq, hgo]
      have hw2 : (move_result g i).waiting_for_second_player = false := by
        rw [move_result_waiting, hw]
      have hcc2 : cell (move_result g i).board i ≠ "" := by rw [hcell]; exact hs
      rcases hseat with ⟨hx, hp1, hp2⟩ | ⟨ho, hp2, hp1⟩
      · have hcur2 : (move_result g i).current_player = "O" := by rw [hflip, hx]; decide
        have ht1 : ¬((move_result g i).current_player = "X" ∧
            (move_result g i).player1_id ≠ some u2) := by
          rintro ⟨hh, _⟩; rw [hcur2] at hh; exact absurd hh (by decide)
        have ht2 : ¬((move_result g i).current_player = "O" ∧
            (move_result g i).player2_id ≠ some u2) := by
          rintro ⟨_, hh⟩; rw [move_result_player2_id, hp2] at hh; exact hh rfl
        constructor
        · right
          simp [game_move_callback, hfind2, hover2, hw2, ht1, ht2, hp, hcc2]
        · simp [game_move_callback, hfind2, hover2, hw2, ht1, ht2, hp, hcc2]
      · have hcur2 : (move_result g i).current_player = "X" := by rw [hflip, ho]; decide
        have ht1 : ¬((move_result g i).current_player = "X" ∧
            (move_result g i).player1_id ≠ some u2) := by
          rintro ⟨_, hh⟩; rw [move_result_player1_id, hp1] at hh; exact hh rfl
        have ht2 : ¬((move_result g i).current_player = "O" ∧
            (move_result g i).player2_id ≠ some u2) := by
          rintro ⟨hh, _⟩; rw [hcur2] at hh; exact absurd hh (by decide)
        constructor
        · right
          simp [game_move_callback, hfind2, hover2, hw2, ht1, ht2, hp, hcc2]
        · simp [game_move_callback, hfind2, hover2, hw2, ht1, ht2, hp, hcc2]
  have hB : game_move_callback reg gid u2 p = (.notYourTurn, reg) := by
    rcases hseat with ⟨hx, hp1, hp2⟩ | ⟨ho, hp2, hp1⟩
    · have hh : g.player1_id ≠ some u2 := by
        rw [hp1]; exact fun e => hne (Option.some.inj e)
      simp [game_move_callback, hf, hgo, hw, hx, hh]
    · have hxne : g.current_player ≠ "X" := by rw [ho]; decide
      have hh : g.player2_id ≠ some u2 := by
        rw [hp2]; exact fun e => hne (Option.some.inj e)
      simp [game_move_callback, hf, hgo, hw, hxne, ho, hh]
  refine ⟨⟨?_, ?_, hcell, ?_, ?_⟩, ?_, ?_⟩
  · rw [hm1]
  · rw [hm1]
    exact hfind2
  · rw [hm1]
    exact hsecond.1
  · rw [hm1]
    exact hsecond.2
  · rw [hB]
  · rw [hB]

/-- Counterexample for C9 as frozen: on `gRace` both players race for cell 2, which
wins the game for x; when the on-turn click lands first, the second click is
rejected with gameOver, which is neither notYourTurn nor cellOccupied. -/
theorem race_terminal_counterexample :
    (game_move_callback regRace "r" 1 2).1 = .accepted ∧
    (game_move_callback (game_move_callback regRace "r" 1 2).2 "r" 2 2).1 = .gameOver ∧
    MoveOutcome.gameOver ≠ .notYourTurn ∧ MoveOutcome.gameOver ≠ .cellOccupied := by
  decide

/-- Witness for C9: the race on the empty cell 4 of `gOpen`, both orders. -/
theorem race_same_cell_thm_witness :
    (game_move_callback regOpen "w" 1 4).1 = .accepted ∧
    ((game_move_callback (game_move_callback regOpen "w" 1 4).2 "w" 2 4).1 = .gameOver ∨
     (game_move_callback (game_move_callback regOpen "w" 1 4).2 "w" 2 4).1 =
       .cellOccupied) ∧
    (game_move_callback regOpen "w" 2 4).1 = .notYourTurn ∧
    (game_move_callback regOpen "w" 2 4).2 = regOpen := by
  have h := race_same_cell_thm regOpen "w" 5 gOpen 1 2 4 4 (by decide) rfl rfl rfl
    (Or.inl ⟨rfl, rfl, rfl⟩) (by decide) (by decide) rfl (by decide) (by decide)
  exact ⟨h.1.1, h.1.2.2.2.1, h.2.1, h.2.2⟩
